import Mathlib

/-
Verification of the Scruffy configuration engine (src/scruffy/config.py).

The Python values a configuration tree can hold are modelled as a shallow
embedding `Value`: ordered mappings (association lists, preserving
insertion order as Python dicts do), sequences, strings, integers,
booleans and None.  Numeric leaves are modelled as integers.  Python
objects are mutated in place through references; here values are
immutable trees and every operation returns the updated tree, with the
in-place writes through aliases made explicit as write-backs along the
traversal spine.  Exceptions are modelled with `Except Err`.
-/

set_option autoImplicit false

namespace Scruffy

/-- Key of a Python dict as used by the config engine: a string or an
integer (integer keys arise from the int conversion of numeric-looking
path segments).  Python bool keys are not modelled; the engine only
produces str and int keys. -/
inductive Key where
  | s (s : String)
  | i (i : Int)
deriving DecidableEq, Repr

/-- A Python value as stored in a config tree.  Dicts keep their entries
in insertion order, as Python dicts do. -/
inductive Value where
  | none
  | bool (b : Bool)
  | int (n : Int)
  | str (s : String)
  | list (xs : List Value)
  | dict (entries : List (Key × Value))
deriving Repr

/-- The Python exceptions the engine can raise. -/
inductive Err where
  | keyError (k : Key)
  | indexError (i : Int)
  | typeError
  | attributeError
deriving DecidableEq, Repr

/-- Lookup in an ordered association list: the model of a dict read. -/
def assocLookup : List (Key × Value) → Key → Option Value
  | [], _ => Option.none
  | (k', v') :: rest, k => if k' = k then some v' else assocLookup rest k

/-- Assignment into an ordered association list: replacing an existing
key keeps its position, a new key is appended, as Python dicts do. -/
def setAssoc : List (Key × Value) → Key → Value → List (Key × Value)
  | [], k, v => [(k, v)]
  | (k', v') :: rest, k, v =>
      if k' = k then (k', v) :: rest else (k', v') :: setAssoc rest k v

/-- Python sequence read with an integer index: negative indices wrap
around once; anything out of range is a miss. -/
def listGet {ALPHA : Type} (xs : List ALPHA) (i : Int) : Option ALPHA :=
  let j := if i < 0 then i + xs.length else i
  if 0 ≤ j then xs.get? j.toNat else Option.none

/-- Python sequence item assignment: negative indices wrap around once;
out of range is a miss (the caller raises IndexError). -/
def listAssign {ALPHA : Type} (xs : List ALPHA) (i : Int) (v : ALPHA) :
    Option (List ALPHA) :=
  let j := if i < 0 then i + xs.length else i
  if 0 ≤ j ∧ j < (xs.length : Int) then some (xs.set j.toNat v) else Option.none

/-- Does `hay` start with `needle`? -/
def listLeads : List Char → List Char → Bool
  | [], _ => true
  | _ :: _, [] => false
  | a :: as, b :: bs => a = b && listLeads as bs

/-- Does `hay` contain `needle` as a contiguous run? -/
def listFindSub (needle : List Char) : List Char → Bool
  | [] => listLeads needle []
  | b :: t => listLeads needle (b :: t) || listFindSub needle t

/-- The Python substring test `needle in hay`. -/
def strIn (needle hay : String) : Bool := listFindSub needle.toList hay.toList

/-- The Python subscript `node[key]`, with the exception each shape
raises: dict miss is a KeyError, sequence or string index out of range
is an IndexError, and subscripting anything else (or a sequence or
string with a string key) is a TypeError.  A string subscript with an
in-range index yields the one-character string, as in Python. -/
def subscript (node : Value) (k : Key) : Except Err Value :=
  match node with
  | .dict d =>
      match assocLookup d k with
      | some v => .ok v
      | Option.none => .error (.keyError k)
  | .list xs =>
      match k with
      | .i i =>
          match listGet xs i with
          | some v => .ok v
          | Option.none => .error (.indexError i)
      | .s _ => .error .typeError
  | .str s =>
      match k with
      | .i i =>
          match listGet s.toList i with
          | some c => .ok (.str (String.mk [c]))
          | Option.none => .error (.indexError i)
      | .s _ => .error .typeError
  | _ => .error .typeError

/-- Lines 158-164 of config.py: `node = node[key]` inside a
`try ... except TypeError` that re-raises a TypeError as IndexError when
the segment is an integer and as KeyError otherwise.  KeyError and
IndexError pass through unchanged. -/
def trySubscript (node : Value) (k : Key) : Except Err Value :=
  match subscript node k with
  | .error .typeError =>
      .error (match k with
              | .i n => .indexError n
              | .s s => .keyError (.s s))
  | r => r

/-- The Python item assignment `node[key] = v`: dicts always accept it;
sequences accept an in-range (possibly negative) integer index and raise
IndexError otherwise and TypeError for a string key; strings and
scalars raise TypeError. -/
def assign (node : Value) (k : Key) (v : Value) : Except Err Value :=
  match node with
  | .dict d => .ok (.dict (setAssoc d k v))
  | .list xs =>
      match k with
      | .i i =>
          match listAssign xs i v with
          | some ys => .ok (.list ys)
          | Option.none => .error (.indexError i)
      | .s _ => .error .typeError
  | _ => .error .typeError

/-- Models the in-place mutation of a child obtained by subscripting:
after the child at `k` has been mutated, the updated child is written
back into the parent.  Strings and scalars are immutable in Python, so
nothing below them is ever mutated and they are returned unchanged. -/
def writeBack (node : Value) (k : Key) (child : Value) : Value :=
  match node with
  | .dict d => .dict (setAssoc d k child)
  | .list xs =>
      match k with
      | .i i =>
          match listAssign xs i child with
          | some ys => .list ys
          | Option.none => .list xs
      | .s _ => node
  | _ => node

/-- The Python equality test between a dict key and a sequence element,
as used by `k in target` when target is a sequence.  Python counts
True equal to 1 and False equal to 0. -/
def keyMatches (k : Key) (v : Value) : Bool :=
  match k, v with
  | .i n, .int m => n = m
  | .i n, .bool b => n = (if b then 1 else 0)
  | .s s, .str t => s = t
  | _, _ => false

/-- The Python containment test `k in node`: key presence for dicts,
element equality for sequences, substring test for strings (an integer
against a string is a TypeError), TypeError for scalars and None. -/
def contains (node : Value) (k : Key) : Except Err Bool :=
  match node with
  | .dict d => .ok (assocLookup d k).isSome
  | .list xs => .ok (xs.any (keyMatches k))
  | .str s =>
      match k with
      | .s sub => .ok (strIn sub s)
      | .i _ => .error .typeError
  | _ => .error .typeError

/-- Lines 143-147 of config.py: `try: key = int(key) except: pass` — a
numeric-looking segment is unconditionally converted to an integer key,
before any container is examined.  `String.toInt?` models `int` on the
digit and sign forms that occur in key paths. -/
def tryInt (s : String) : Key :=
  match s.toInt? with
  | some n => .i n
  | Option.none => .s s

/-- Line 130 of config.py: the dotted key path is split on the dot.
Python `split` and `String.splitOn` agree, returning at least one
(possibly empty) segment. -/
def pathSegs (s : String) : List String := s.splitOn "."

/-- Lines 149-154 of config.py, the auto-vivification step: when
`create` is set and the current container is a dict missing the key, an
empty dict is inserted at the key (at the end, in insertion order); when
it is a sequence and the converted key is an integer strictly greater
than the length, ONE element is appended — the sequence
`[None for i in range(key-len(node))]`, that is, a nested list of
`key - len` None entries (this is the literal behaviour of the source,
`append`, not `extend`).  Everything else is left alone. -/
def createStep (create : Bool) (node : Value) (k : Key) : Value :=
  if create then
    match node, k with
    | .dict d, k =>
        if (assocLookup d k).isNone then .dict (d ++ [(k, .dict [])]) else node
    | .list xs, .i i =>
        if (xs.length : Int) < i then
          .list (xs ++ [.list (List.replicate (i - xs.length).toNat Value.none)])
        else node
    | _, _ => node
  else node

/-- The traversal loop of `_resolve_path` (lines 139-166 of config.py)
over a non-empty segment list, fused with the final read
`container[last]` done by `_get_value`: each iteration converts the
segment with `tryInt`, applies the auto-vivification step, and steps
into `node[key]` with the TypeError conversion of `trySubscript`.  The
result pairs the updated subtree (auto-vivification mutates the tree in
place; the write-backs reproduce that through the immutable model) with
the value reached at the end of the walk, which is exactly the
`container[last]` that `_get_value` reads, since `container` is the
node of the last iteration and no mutation happens in between.  A
failed resolution returns only the exception; partial auto-vivification
performed before a failure is not tracked. -/
def resolveLoop (create : Bool) : Value → String → List String →
    Except Err (Value × Value)
  | node, seg, [] =>
      match trySubscript (createStep create node (tryInt seg)) (tryInt seg) with
      | .error e => .error e
      | .ok child => .ok (createStep create node (tryInt seg), child)
  | node, seg, seg2 :: rest' =>
      match trySubscript (createStep create node (tryInt seg)) (tryInt seg) with
      | .error e => .error e
      | .ok child =>
          match resolveLoop create child seg2 rest' with
          | .error e => .error e
          | .ok (child', v) =>
              .ok (writeBack (createStep create node (tryInt seg)) (tryInt seg) child', v)

/-- `__setitem__` (lines 37-39 of config.py): `_resolve_path` with
`create=True` followed by the assignment `container[last] = value`
through the returned alias.  The traversal must fully succeed —
including the step into the final key, which `_resolve_path` performs —
before the assignment happens; any exception propagates. -/
def setLoop : Value → String → List String → Value → Except Err Value
  | node, seg, [], value =>
      match trySubscript (createStep true node (tryInt seg)) (tryInt seg) with
      | .error e => .error e
      | .ok _ => assign (createStep true node (tryInt seg)) (tryInt seg) value
  | node, seg, seg2 :: rest', value =>
      match trySubscript (createStep true node (tryInt seg)) (tryInt seg) with
      | .error e => .error e
      | .ok child =>
          match setLoop child seg2 rest' value with
          | .error e => .error e
          | .ok child' =>
              .ok (writeBack (createStep true node (tryInt seg)) (tryInt seg) child')

/-- `_get_value` (lines 168-181 of config.py) on a node with a
non-empty path: resolve without creating, read the value, and convert a
KeyError or an IndexError into None; any other exception propagates. -/
def getValueE (tree : Value) (seg : String) (rest : List String) : Except Err Value :=
  match resolveLoop false tree seg rest with
  | .ok (_, v) => .ok v
  | .error (.keyError _) => .ok Value.none
  | .error (.indexError _) => .ok Value.none
  | .error e => .error e

/-- `root[key] = value` on the root node: the child path is the dotted
key itself (the root path is empty), split into segments and resolved
with creation. `pathSegs` never returns an empty list. -/
def setitem (tree : Value) (key : String) (v : Value) : Except Err Value :=
  match pathSegs key with
  | [] => .ok tree
  | s :: rest => setLoop tree s rest v

/-- `root[key]` reading: the resolved value of the child for the dotted
key.  An empty path denotes the root itself, whose value is the whole
tree. -/
def readPath (tree : Value) (key : String) : Except Err Value :=
  match pathSegs key with
  | [] => .ok tree
  | s :: rest => getValueE tree s rest

/-- What `__getitem__` hands back: either a live child view carrying
only its path, or a raw scalar. -/
inductive GetResult where
  | node (segs : List String)
  | scalar (v : Value)
deriving Repr

/-- The type test of `__getitem__`: `type(v) in [dict, list, type(None)]`
— is the resolved value a container or absent? -/
def isContainerOrAbsent : Value → Bool
  | .dict _ => true
  | .list _ => true
  | .none => true
  | _ => false

/-- `__getitem__` (lines 29-35 of config.py) on the child at the given
non-empty segment list: resolve the value; if it is a dict, a list or
None, return the child view itself, otherwise return the raw value. -/
def getitem (tree : Value) (seg : String) (rest : List String) :
    Except Err GetResult :=
  match getValueE tree seg rest with
  | .error e => .error e
  | .ok v =>
      match v with
      | .dict _ => .ok (.node (seg :: rest))
      | .list _ => .ok (.node (seg :: rest))
      | .none => .ok (.node (seg :: rest))
      | _ => .ok (.scalar v)

mutual

/-- `update_dict(target, source)` (lines 260-264 of config.py):
iterate over the ordered entries of `source` and merge them into
`target` in place; the updated target is returned.  Iterating
`source.items()` on a non-dict raises AttributeError. -/
def update_dict : Value → Value → Except Err Value
  | target, .dict entries => update_go target entries
  | _, _ => .error .attributeError
termination_by structural _target source => source

/-- The `for k,v in source.items()` loop of `update_dict`.  For each
entry `(k, v)`: when `v` is a dict AND `k in target` — the source
condition tests `isinstance(source[k], dict)` a second time, which is
the same object as `v` and therefore already known to be a dict; it
never inspects the type of `target[k]` — recurse into `target[k]` and
`v` and write the mutated child back; otherwise `target[k] = v`.  The
tests short-circuit in source order, and any exception aborts the
loop. -/
def update_go : Value → List (Key × Value) → Except Err Value
  | tgt, [] => .ok tgt
  | tgt, (k, v) :: rest =>
      match v with
      | .dict _ =>
          match contains tgt k with
          | .error e => .error e
          | .ok true =>
              match subscript tgt k with
              | .error e => .error e
              | .ok child =>
                  match update_dict child v with
                  | .error e => .error e
                  | .ok child' => update_go (writeBack tgt k child') rest
          | .ok false =>
              match assign tgt k v with
              | .error e => .error e
              | .ok tgt' => update_go tgt' rest
      | _ =>
          match assign tgt k v with
          | .error e => .error e
          | .ok tgt' => update_go tgt' rest
termination_by structural _tgt entries => entries

end

/-- The state of a root config node: the stored defaults tree and the
live underlying data tree (`_defaults` and `_data` of config.py). -/
structure Config where
  defaults : Value
  data : Value
deriving Repr

/-- The options loop of `update` (lines 209-210 of config.py):
`for key in options: self[key] = options[key]`, on the root, in
iteration order. -/
def applySets : Value → List (String × Value) → Except Err Value
  | t, [] => .ok t
  | t, (k, v) :: rest =>
      match setitem t k v with
      | .error e => .error e
      | .ok t' => applySets t' rest

/-- `update(data, options)` on the root (lines 183-215 of config.py):
apply the dotted-path options first via the auto-vivifying setter, then
deep-merge `data` into the current tree in place.  If `data` is itself
a config view the Python code first extracts its resolved value; here
`data` is already a `Value`. -/
def updateConfig (cfg : Config) (options : List (String × Value)) (data : Value) :
    Except Err Config :=
  match applySets cfg.data options with
  | .error e => .error e
  | .ok t =>
      match update_dict t data with
      | .error e => .error e
      | .ok t' => .ok { cfg with data := t' }

/-- `__init__(data, defaults)` for a root node (lines 20-27 of
config.py): `_data` starts as a deep copy of `defaults` (a deep copy of
an immutable tree is the tree itself), then `update(data)` runs once. -/
def mkConfig (data defaults : Value) : Except Err Config :=
  updateConfig { defaults := defaults, data := defaults } [] data

/-- `reset` (lines 218-222 of config.py): replace the data tree with a
fresh deep copy of the stored defaults. -/
def resetConfig (cfg : Config) : Config :=
  { cfg with data := cfg.defaults }

/-- A mutating operation applied to the root after construction: a
single dotted-path set, or an `update` call. -/
inductive Op where
  | setOp (key : String) (v : Value)
  | updateOp (options : List (String × Value)) (data : Value)

/-- Apply one operation to the root state. -/
def applyOp (cfg : Config) : Op → Except Err Config
  | .setOp k v =>
      match setitem cfg.data k v with
      | .error e => .error e
      | .ok t => .ok { cfg with data := t }
  | .updateOp options data => updateConfig cfg options data

/-- Apply a sequence of operations to the root state, aborting on the
first exception. -/
def applyOps : Config → List Op → Except Err Config
  | cfg, [] => .ok cfg
  | cfg, op :: rest =>
      match applyOp cfg op with
      | .error e => .error e
      | .ok cfg' => applyOps cfg' rest

/-! Basic lemmas about the primitive operations. -/

lemma setAssoc_lookup_self :
    ∀ (d : List (Key × Value)) (k : Key) (v : Value),
      assocLookup d k = some v → setAssoc d k v = d := by
  intro d k v h
  induction d with
  | nil => simp [assocLookup] at h
  | cons p rest ih =>
      obtain ⟨k', v'⟩ := p
      by_cases hk : k' = k
      · subst hk
        simp [assocLookup] at h
        simp [setAssoc, h]
      · simp [assocLookup, hk] at h
        simp [setAssoc, hk, ih h]

lemma list_set_self :
    ∀ (xs : List Value) (n : Nat) (v : Value),
      xs.get? n = some v → xs.set n v = xs := by
  intro xs
  induction xs with
  | nil => intro n v h; simp at h
  | cons x rest ih =>
      intro n v h
      cases n with
      | zero =>
          simp only [List.get?] at h
          cases h
          rfl
      | succ m =>
          simp only [List.get?] at h
          simp only [List.set]
          rw [ih m v h]

lemma createStep_false (node : Value) (k : Key) : createStep false node k = node := rfl

lemma subscript_error_shape {node : Value} {k : Key} {e : Err}
    (h : subscript node k = .error e) :
    e = .typeError ∨ (∃ k', e = .keyError k') ∨ (∃ i, e = .indexError i) := by
  cases node with
  | dict d =>
      cases hl : assocLookup d k with
      | none => simp [subscript, hl] at h; subst h; exact Or.inr (Or.inl ⟨k, rfl⟩)
      | some w => simp [subscript, hl] at h
  | list xs =>
      cases k with
      | s s => simp [subscript] at h; subst h; exact Or.inl rfl
      | i i =>
          cases hg : listGet xs i with
          | none => simp [subscript, hg] at h; subst h; exact Or.inr (Or.inr ⟨i, rfl⟩)
          | some w => simp [subscript, hg] at h
  | str s =>
      cases k with
      | s s' => simp [subscript] at h; subst h; exact Or.inl rfl
      | i i =>
          cases hg : listGet s.toList i with
          | none =>
              simp only [String.toList] at hg
              simp [subscript, hg] at h
              subst h
              exact Or.inr (Or.inr ⟨i, rfl⟩)
          | some w =>
              simp only [String.toList] at hg
              simp [subscript, hg] at h
  | none => simp [subscript] at h; subst h; exact Or.inl rfl
  | bool b => simp [subscript] at h; subst h; exact Or.inl rfl
  | int n => simp [subscript] at h; subst h; exact Or.inl rfl

lemma trySubscript_error_shape {node : Value} {k : Key} {e : Err}
    (h : trySubscript node k = .error e) :
    (∃ k', e = .keyError k') ∨ (∃ i, e = .indexError i) := by
  unfold trySubscript at h
  cases hs : subscript node k with
  | ok v => rw [hs] at h; cases h
  | error e' =>
      rw [hs] at h
      rcases subscript_error_shape hs with rfl | ⟨k', rfl⟩ | ⟨i, rfl⟩
      · cases k with
        | i n => simp at h; subst h; exact Or.inr ⟨n, rfl⟩
        | s s => simp at h; subst h; exact Or.inl ⟨.s s, rfl⟩
      · simp at h; subst h; exact Or.inl ⟨k', rfl⟩
      · simp at h; subst h; exact Or.inr ⟨i, rfl⟩

lemma trySubscript_ne_typeError (node : Value) (k : Key) :
    trySubscript node k ≠ .error .typeError := by
  intro h
  rcases trySubscript_error_shape h with ⟨k', hk⟩ | ⟨i, hi⟩
  · cases hk
  · cases hi

lemma trySubscript_ok_iff {node : Value} {k : Key} {v : Value} :
    trySubscript node k = .ok v ↔ subscript node k = .ok v := by
  unfold trySubscript
  cases h : subscript node k with
  | ok w => simp
  | error e => cases e <;> cases k <;> simp

lemma listGet_toNat_lt {xs : List Value} {j : Int} {v : Value}
    (hj : 0 ≤ j) (h : xs.get? j.toNat = some v) : j < (xs.length : Int) := by
  rw [List.get?_eq_getElem?] at h
  have hlt := (List.getElem?_eq_some_iff.mp h).1
  omega

lemma writeBack_subscript_self {node : Value} {k : Key} {child : Value}
    (h : subscript node k = .ok child) : writeBack node k child = node := by
  cases node with
  | dict d =>
      cases hl : assocLookup d k with
      | none => simp [subscript, hl] at h
      | some w =>
          simp [subscript, hl] at h
          subst h
          simp [writeBack, setAssoc_lookup_self d k w hl]
  | list xs =>
      cases k with
      | s s => simp [subscript] at h
      | i i =>
          cases hg : listGet xs i with
          | none => simp [subscript, hg] at h
          | some w =>
              simp [subscript, hg] at h
              subst h
              simp only [listGet] at hg
              by_cases hj : (0 : Int) ≤ (if i < 0 then i + xs.length else i)
              · rw [if_pos hj] at hg
                have hless := listGet_toNat_lt hj hg
                simp only [writeBack, listAssign]
                rw [if_pos ⟨hj, hless⟩]
                rw [list_set_self xs _ w hg]
              · rw [if_neg hj] at hg; cases hg
  | str s => simp [writeBack]
  | none => simp [subscript] at h
  | bool b => simp [subscript] at h
  | int n => simp [subscript] at h

lemma resolveLoop_false_preserves :
    ∀ (rest : List String) (node : Value) (seg : String) (t v : Value),
      resolveLoop false node seg rest = .ok (t, v) → t = node := by
  intro rest
  induction rest with
  | nil =>
      intro node seg t v h
      simp only [resolveLoop, createStep_false] at h
      cases hs : trySubscript node (tryInt seg) with
      | error e => rw [hs] at h; simp at h
      | ok child =>
          rw [hs] at h
          simp at h
          exact h.1.symm
  | cons seg2 rest' ih =>
      intro node seg t v h
      simp only [resolveLoop, createStep_false] at h
      split at h
      · exact absurd h (by simp)
      next child hs =>
          split at h
          · exact absurd h (by simp)
          next child' v' hr =>
              simp only [Except.ok.injEq, Prod.mk.injEq] at h
              have hc : child' = child := ih child seg2 child' v' hr
              subst hc
              rw [← h.1]
              exact writeBack_subscript_self (trySubscript_ok_iff.mp hs)

lemma resolveLoop_error_shape :
    ∀ (rest : List String) (create : Bool) (node : Value) (seg : String) (e : Err),
      resolveLoop create node seg rest = .error e →
        (∃ k', e = .keyError k') ∨ (∃ i, e = .indexError i) := by
  intro rest
  induction rest with
  | nil =>
      intro create node seg e h
      simp only [resolveLoop] at h
      split at h
      next e' hs =>
          simp only [Except.error.injEq] at h
          subst h
          exact trySubscript_error_shape hs
      next child hs => exact absurd h (by simp)
  | cons seg2 rest' ih =>
      intro create node seg e h
      simp only [resolveLoop] at h
      split at h
      next e' hs =>
          simp only [Except.error.injEq] at h
          subst h
          exact trySubscript_error_shape hs
      next child hs =>
          split at h
          next e' hr =>
              simp only [Except.error.injEq] at h
              subst h
              exact ih create child seg2 _ hr
          next child' v' hr => exact absurd h (by simp)

lemma updateConfig_defaults {cfg cfg' : Config} {options : List (String × Value)}
    {data : Value} (h : updateConfig cfg options data = .ok cfg') :
    cfg'.defaults = cfg.defaults := by
  unfold updateConfig at h
  split at h
  · exact absurd h (by simp)
  next t h1 =>
      split at h
      · exact absurd h (by simp)
      next t2 h2 =>
          simp only [Except.ok.injEq] at h
          subst h
          rfl

lemma applyOp_defaults {cfg cfg' : Config} {op : Op}
    (h : applyOp cfg op = .ok cfg') : cfg'.defaults = cfg.defaults := by
  cases op with
  | setOp k v =>
      simp only [applyOp] at h
      split at h
      · exact absurd h (by simp)
      next t h1 =>
          simp only [Except.ok.injEq] at h
          subst h
          rfl
  | updateOp options data =>
      simp only [applyOp] at h
      exact updateConfig_defaults h

lemma applyOps_defaults :
    ∀ (ops : List Op) (cfg cfg' : Config),
      applyOps cfg ops = .ok cfg' → cfg'.defaults = cfg.defaults := by
  intro ops
  induction ops with
  | nil =>
      intro cfg cfg' h
      simp only [applyOps, Except.ok.injEq] at h
      subst h
      rfl
  | cons op rest ih =>
      intro cfg cfg' h
      simp only [applyOps] at h
      split at h
      · exact absurd h (by simp)
      next cfg1 h1 =>
          rw [ih cfg1 cfg' h, applyOp_defaults h1]

/-! Claim theorems. -/

/-- C1: the deep merge evaluated where the target holds a scalar and the
source a mapping under the same key.  The claim says the target value is
replaced wholesale; the code instead recurses into the scalar — its
condition tests the source side twice and never the type of the target
side — and the recursive call raises TypeError from the item assignment
on the integer. -/
theorem c1_update_dict_mismatch_raises :
    update_dict (.dict [(.s "x", .int 1)])
        (.dict [(.s "x", .dict [(.s "a", .int 2)])])
      = .error .typeError := by
  with_unfolding_all rfl

/-- C2, counterexample: a mapping whose only key is the string form of a
number is NOT addressed by the numeric-looking path segment; the segment
is converted to the integer 1, which misses the string key, and the read
collapses to absent.  The second conjunct shows the entry is present
under its string key. -/
theorem c2_numeric_string_key_counterexample :
    getValueE (.dict [(.s "1", .str "x")]) "1" [] = .ok Value.none
      ∧ assocLookup [(.s "1", .str "x")] (.s "1") = some (.str "x") := by
  constructor
  · with_unfolding_all rfl
  · rfl

/-- C2, amended: a numeric-looking segment is converted to an integer
key unconditionally, before the container at that position is examined:
against a mapping the lookup uses the integer key (so a string-form
numeric key is unreachable), and against a sequence a non-negative
integer acts as an index. -/
theorem c2_numeric_segments_always_int :
    ∀ (s : String) (n : Int) (entries : List (Key × Value)) (xs : List Value),
      s.toInt? = some n →
      getValueE (.dict entries) s []
          = .ok ((assocLookup entries (.i n)).getD Value.none)
      ∧ (0 ≤ n →
          getValueE (.list xs) s []
            = .ok ((xs.get? n.toNat).getD Value.none)) := by
  intro s n entries xs hn
  constructor
  · cases hl : assocLookup entries (.i n) with
    | none => simp [getValueE, resolveLoop, createStep, tryInt, hn, trySubscript, subscript, hl]
    | some w => simp [getValueE, resolveLoop, createStep, tryInt, hn, trySubscript, subscript, hl]
  · intro hpos
    have hj : ¬ ((n : Int) < 0) := by omega
    cases hg : xs.get? n.toNat with
    | none =>
        rw [List.get?_eq_getElem?] at hg
        simp [getValueE, resolveLoop, createStep, tryInt, hn, trySubscript, subscript,
              listGet, hj, hpos, hg, List.get?_eq_getElem?]
    | some w =>
        rw [List.get?_eq_getElem?] at hg
        simp [getValueE, resolveLoop, createStep, tryInt, hn, trySubscript, subscript,
              listGet, hj, hpos, hg, List.get?_eq_getElem?]

/-- C2, witness for the amended statement at concrete inputs: the path
segment 1 misses the mapping with the string key and indexes the
two-element sequence. -/
theorem c2_numeric_segments_always_int_witness :
    getValueE (.dict [(.s "1", .str "x")]) "1" [] = .ok Value.none
      ∧ getValueE (.list [.int 7, .int 8]) "1" [] = .ok (.int 8) := by
  have h := c2_numeric_segments_always_int "1" 1 [(.s "1", .str "x")]
    [.int 7, .int 8] (by with_unfolding_all rfl)
  exact ⟨by simpa using h.1, by simpa using h.2 (by omega)⟩

/-- C3: a read never raises — for every tree and every dotted path,
`_get_value` returns a value, and whenever the resolution fails (the
path is not present) the returned value is None: both not-found kinds
are caught and converted to absent. -/
theorem c3_missing_read_absent :
    ∀ (tree : Value) (seg : String) (rest : List String),
      ∃ v, getValueE tree seg rest = .ok v
        ∧ ((resolveLoop false tree seg rest).isOk = false → v = Value.none) := by
  intro tree seg rest
  cases h : resolveLoop false tree seg rest with
  | ok p =>
      obtain ⟨t, v⟩ := p
      refine ⟨v, by simp [getValueE, h], ?_⟩
      intro habs
      simp [Except.isOk, Except.toBool] at habs
  | error e =>
      rcases resolveLoop_error_shape rest false tree seg e h with ⟨k', rfl⟩ | ⟨i, rfl⟩
      · exact ⟨Value.none, by simp [getValueE, h], fun _ => rfl⟩
      · exact ⟨Value.none, by simp [getValueE, h], fun _ => rfl⟩

/-- C3, witness: reading the missing path nope.nope on an empty root
yields absent. -/
theorem c3_missing_read_absent_witness :
    getValueE (Value.dict []) "nope" ["nope"] = .ok Value.none := by
  obtain ⟨v, hv, himp⟩ := c3_missing_read_absent (Value.dict []) "nope" ["nope"]
  have hnone : v = Value.none := himp (by with_unfolding_all rfl)
  rw [hnone] at hv
  exact hv

/-- C4: sequence auto-vivification evaluated at the failing input.  The
claim says the sequence is extended with absent placeholders so that the
write succeeds; the code appends a SINGLE element (itself a list of None
entries) instead of extending, the index is still out of range, and the
write raises IndexError.  The second conjunct exhibits the appended
nested placeholder. -/
theorem c4_sequence_autoviv_raises :
    setitem (.dict [(.s "a", .list [])]) "a.1" (.int 5) = .error (.indexError 1)
      ∧ createStep true (.list []) (.i 1) = .list [.list [Value.none]] := by
  constructor
  · with_unfolding_all rfl
  · with_unfolding_all rfl

/-- C5, counterexample: indexing through a scalar during a read raises
TypeError inside the resolver, but the resolver converts it to KeyError
and `_get_value` then converts that to absent — so on a read the
type-mismatch IS handled and collapsed to an absent result, contrary to
the claim. -/
theorem c5_type_mismatch_counterexample :
    subscript (Value.int 5) (Key.s "b") = .error .typeError
      ∧ resolveLoop false (Value.dict [(Key.s "a", Value.int 5)]) "a" ["b"]
          = .error (.keyError (.s "b"))
      ∧ getValueE (Value.dict [(Key.s "a", Value.int 5)]) "a" ["b"]
          = .ok Value.none := by
  refine ⟨rfl, ?_, ?_⟩
  · with_unfolding_all rfl
  · with_unfolding_all rfl

/-- C5, amended: the TypeError raised by indexing a non-container is
caught in `_resolve_path` and re-raised as IndexError for an integer
segment and KeyError otherwise; consequently on a read every failed
resolution — the converted type-mismatch included — collapses to an
absent result exactly like the two not-found kinds. -/
theorem c5_type_mismatch_converted :
    (∀ (node : Value) (k : Key), subscript node k = .error .typeError →
        trySubscript node k = .error (match k with
          | Key.i n => Err.indexError n
          | Key.s s => Err.keyError (.s s)))
    ∧ (∀ (tree : Value) (seg : String) (rest : List String) (e : Err),
        resolveLoop false tree seg rest = .error e →
          getValueE tree seg rest = .ok Value.none) := by
  constructor
  · intro node k h
    unfold trySubscript
    rw [h]
  · intro tree seg rest e h
    rcases resolveLoop_error_shape rest false tree seg e h with ⟨k', rfl⟩ | ⟨i, rfl⟩
    · simp [getValueE, h]
    · simp [getValueE, h]

/-- C5, witness: the conversion and the collapse to absent at the
concrete scalar-indexing input. -/
theorem c5_type_mismatch_converted_witness :
    trySubscript (Value.int 5) (Key.s "b") = .error (Err.keyError (Key.s "b"))
      ∧ getValueE (Value.dict [(Key.s "a", Value.int 5)]) "a" ["b"]
          = .ok Value.none := by
  constructor
  · exact c5_type_mismatch_converted.1 (Value.int 5) (Key.s "b") (by rfl)
  · exact c5_type_mismatch_converted.2 (Value.dict [(Key.s "a", Value.int 5)])
      "a" ["b"] (Err.keyError (Key.s "b")) (by with_unfolding_all rfl)

/-- C6: reset restores exactly the defaults — for every defaults tree,
construction data and sequence of set and update operations that apply
without an exception, `reset` leaves the data tree equal to a fresh
deep copy of the defaults tree (a deep copy of an immutable tree is the
tree itself); everything added or changed since construction is gone. -/
theorem c6_reset_restores_defaults :
    ∀ (D data : Value) (ops : List Op) (cfg0 cfg : Config),
      mkConfig data D = .ok cfg0 → applyOps cfg0 ops = .ok cfg →
        (resetConfig cfg).data = D := by
  intro D data ops cfg0 cfg h0 h1
  simp only [mkConfig] at h0
  have hd0 := updateConfig_defaults h0
  have hd1 := applyOps_defaults ops cfg0 cfg h1
  show cfg.defaults = D
  rw [hd1, hd0]

/-- C6, witness: defaults a: 1, then update with data a: 2, b: 3, then
reset; the data tree is back to a: 1 and b is gone. -/
theorem c6_reset_restores_defaults_witness :
    (resetConfig { defaults := Value.dict [(Key.s "a", Value.int 1)],
                   data := Value.dict [(Key.s "a", Value.int 2),
                                       (Key.s "b", Value.int 3)] }).data
      = Value.dict [(Key.s "a", Value.int 1)] :=
  c6_reset_restores_defaults (Value.dict [(Key.s "a", Value.int 1)]) (Value.dict [])
    [Op.updateOp [] (Value.dict [(Key.s "a", Value.int 2), (Key.s "b", Value.int 3)])]
    { defaults := Value.dict [(Key.s "a", Value.int 1)],
      data := Value.dict [(Key.s "a", Value.int 1)] }
    { defaults := Value.dict [(Key.s "a", Value.int 1)],
      data := Value.dict [(Key.s "a", Value.int 2), (Key.s "b", Value.int 3)] }
    (by with_unfolding_all rfl) (by with_unfolding_all rfl)

/-- C7: the options shorthand is equivalent to the nested data form on
an empty root — updating with the flat dotted option server.port is the
same as deep-merging the nested singleton mapping, and both produce the
nested structure. -/
theorem c7_options_shorthand_equiv :
    mkConfig (Value.dict []) (Value.dict [])
        = .ok { defaults := Value.dict [], data := Value.dict [] }
      ∧ updateConfig { defaults := Value.dict [], data := Value.dict [] }
            [("server.port", Value.int 8080)] (Value.dict [])
          = updateConfig { defaults := Value.dict [], data := Value.dict [] } []
              (Value.dict [(Key.s "server", Value.dict [(Key.s "port", Value.int 8080)])])
      ∧ updateConfig { defaults := Value.dict [], data := Value.dict [] }
            [("server.port", Value.int 8080)] (Value.dict [])
          = .ok { defaults := Value.dict [],
                  data := Value.dict
                    [(Key.s "server",
                      Value.dict [(Key.s "port", Value.int 8080)])] } := by
  refine ⟨?_, ?_, ?_⟩
  · with_unfolding_all rfl
  · with_unfolding_all rfl
  · with_unfolding_all rfl

/-- C8: auto-vivification on mappings with read-back — writing any
value at the path a.b.c on an empty root creates the two intermediate
mappings and stores the value; reading a.b.c back resolves to the
written value, and reading a or a.b yields a child view (a container),
not a scalar. -/
theorem c8_autoviv_mapping_roundtrip :
    ∀ v : Value,
      setitem (Value.dict []) "a.b.c" v
          = .ok (Value.dict [(Key.s "a",
              Value.dict [(Key.s "b", Value.dict [(Key.s "c", v)])])])
      ∧ getValueE (Value.dict [(Key.s "a",
            Value.dict [(Key.s "b", Value.dict [(Key.s "c", v)])])]) "a" ["b", "c"]
          = .ok v
      ∧ getitem (Value.dict [(Key.s "a",
            Value.dict [(Key.s "b", Value.dict [(Key.s "c", v)])])]) "a" []
          = .ok (.node ["a"])
      ∧ getitem (Value.dict [(Key.s "a",
            Value.dict [(Key.s "b", Value.dict [(Key.s "c", v)])])]) "a" ["b"]
          = .ok (.node ["a", "b"]) := by
  intro v
  refine ⟨?_, ?_, ?_, ?_⟩
  · with_unfolding_all rfl
  · with_unfolding_all rfl
  · with_unfolding_all rfl
  · with_unfolding_all rfl

/-- C9: the dual behaviour of `__getitem__` — whenever the resolved
value of the child path is a mapping, a sequence, or absent, a child
view over that path is returned; for any other (scalar) resolved value
the raw value itself is returned. -/
theorem c9_dual_get :
    ∀ (tree : Value) (seg : String) (rest : List String) (v : Value),
      getValueE tree seg rest = .ok v →
        getitem tree seg rest
          = .ok (if isContainerOrAbsent v then GetResult.node (seg :: rest)
                 else GetResult.scalar v) := by
  intro tree seg rest v h
  unfold getitem
  rw [h]
  cases v <;> simp [isContainerOrAbsent]

/-- C9, witness: reading the scalar at key a gives back the raw value,
not a view. -/
theorem c9_dual_get_witness :
    getitem (Value.dict [(Key.s "a", Value.int 5)]) "a" []
      = .ok (GetResult.scalar (Value.int 5)) := by
  have h := c9_dual_get (Value.dict [(Key.s "a", Value.int 5)]) "a" []
    (Value.int 5) (by with_unfolding_all rfl)
  simpa using h

/-- C10: reads do not mutate — a non-creating resolution returns the
tree it walked unchanged (the value it reports is the one `_get_value`
reads), and the no-op merge performed by the child constructor, with an
empty source dict, returns its target unchanged whatever it is. -/
theorem c10_reads_pure :
    (∀ (tree : Value) (seg : String) (rest : List String) (t v : Value),
        resolveLoop false tree seg rest = .ok (t, v) →
          t = tree ∧ getValueE tree seg rest = .ok v)
    ∧ (∀ v : Value, update_dict v (.dict []) = .ok v) := by
  constructor
  · intro tree seg rest t v h
    exact ⟨resolveLoop_false_preserves rest tree seg t v h, by simp [getValueE, h]⟩
  · intro v
    with_unfolding_all rfl

/-- C10, witness: the concrete successful resolution of key a returns
the tree unchanged together with its value, and the empty merge leaves
a scalar target untouched. -/
theorem c10_reads_pure_witness :
    ((Value.dict [(Key.s "a", Value.int 1)]) = (Value.dict [(Key.s "a", Value.int 1)])
        ∧ getValueE (Value.dict [(Key.s "a", Value.int 1)]) "a" [] = .ok (Value.int 1))
      ∧ update_dict (Value.int 7) (Value.dict []) = .ok (Value.int 7) := by
  refine ⟨?_, ?_⟩
  · exact c10_reads_pure.1 (Value.dict [(Key.s "a", Value.int 1)]) "a" []
      (Value.dict [(Key.s "a", Value.int 1)]) (Value.int 1) (by with_unfolding_all rfl)
  · exact c10_reads_pure.2 (Value.int 7)

end Scruffy
